import Mathlib

/-!
Wiring of the staking module (`x/staking/module.go`).

A shallow embedding of the dependency-injection and registration functions of
`x/staking/module.go`:

* `InvokeSetStakingHooks` (lines 288-325),
* `ProvideAddressCodec` (lines 219-243),
* `ProvideModule` (lines 268-286),
* `AppModule.RegisterServices` (lines 149-167) and `AppModule.ConsensusVersion`.

Go strings are modelled by `String`, Go slices by `List`, a Go `map[string]V`
by an association list with pairwise distinct keys, a nilable pointer or
function value by `Option`.  The calls of `keeper.SetHooks` are returned as a
trace next to the result of `InvokeSetStakingHooks`; the configurator of
`RegisterServices` is a state machine, and the calls it receives are read off
a configurator that logs them (`Configurator.recording`).
-/

namespace Staking

/-! ## Configuration objects -/

/-- The fields of `modulev1.Module`, the staking module configuration, that
`module.go` reads or writes. -/
structure Module where
  HooksOrder : List String
  Bech32PrefixValidator : String
  Bech32PrefixConsensus : String
  Authority : String
deriving DecidableEq, Repr

/-- The field of `authmodulev1.Module` that `module.go` reads. -/
structure AuthModule where
  Bech32Prefix : String
deriving DecidableEq, Repr

/-! ## Go maps and `sort.Strings` -/

/-- A Go `map[string]V` as an association list.  A list stands for a Go map
when its keys are pairwise distinct (`GoMap.WF`). -/
abbrev GoMap (V : Type) := List (String × V)

/-- The keys of a map, in the order of the representing list. -/
def GoMap.keys {V : Type} (m : GoMap V) : List String := m.map Prod.fst

/-- Well-formedness of the representation: every key occurs once. -/
def GoMap.WF {V : Type} (m : GoMap V) : Prop := m.keys.Nodup

instance GoMap.decidableWF {V : Type} (m : GoMap V) : Decidable m.WF :=
  inferInstanceAs (Decidable m.keys.Nodup)

/-- The two-valued map index `v, ok := m[k]`. -/
def GoMap.get {V : Type} (m : GoMap V) (k : String) : Option V := List.lookup k m

/-- What `maps.Keys` may return for `m`: the keys of `m`, each once, in an
indeterminate order. -/
def IsKeysEnumeration {V : Type} (m : GoMap V) (ks : List String) : Prop :=
  ks.Perm m.keys

instance decidableIsKeysEnumeration {V : Type} (m : GoMap V) (ks : List String) :
    Decidable (IsKeysEnumeration m ks) :=
  inferInstanceAs (Decidable (ks.Perm m.keys))

/-- Go's `<` on strings is the lexicographic order of the bytes; on the
UTF-8 strings that `String` holds this is the lexicographic order of the code
points, computed here by structural recursion. -/
def lexLess : List Char → List Char → Bool
  | _, [] => false
  | [], _ :: _ => true
  | c :: cs, d :: ds => if c < d then true else if c = d then lexLess cs ds else false

/-- The comparison `a <= b` on Go strings, as `!(b < a)`. -/
def stringLE (a b : String) : Bool := !lexLess b.data a.data

/-- The Go call `sort.Strings(x)`: sorts the slice into increasing order.  The
standard library routine is not part of the repository; since the order is
total and equal strings are indistinguishable, every correct sorting routine
returns the list computed here. -/
def sortStrings (x : List String) : List String :=
  x.insertionSort (fun a b => stringLE a b = true)

/-! ## `InvokeSetStakingHooks` -/

/-- The two errors `InvokeSetStakingHooks` builds with `fmt.Errorf`, with the
values that are formatted into the message. -/
inductive HooksError where
  /-- The error of line 306, "len(hooks_order: %v) != len(hooks modules: %v)". -/
  | lenMismatch (order modNames : List String)
  /-- The error of line 317, "can't find staking hooks for module %s". -/
  | missingHooks (modName : String)
deriving DecidableEq, Repr

/-- Outcome of a call of `InvokeSetStakingHooks`: the returned `error`
(`none` is `nil`) and the arguments of the calls of `keeper.SetHooks` made, in
call order. -/
structure InvokeResult (Hook : Type) where
  err : Option HooksError
  setHooks : List (List Hook)
deriving DecidableEq, Repr

/-- The loop of lines 313-321: look every name of `order` up in the map and
append the hook found to `multiHooks`; the first name without an entry stops
the loop with that name. -/
def collectHooks {Hook : Type} (stakingHooks : GoMap Hook) :
    List String → List Hook → Except String (List Hook)
  | [], multiHooks => .ok multiHooks
  | modName :: rest, multiHooks =>
    match stakingHooks.get modName with
    | none => .error modName
    | some hook => collectHooks stakingHooks rest (multiHooks ++ [hook])

/-- The function `InvokeSetStakingHooks` of lines 288-325.  `mapsKeys` is the
slice that `maps.Keys(stakingHooks)` returns; `config` and `keeper` are the
two pointers, `none` when nil. -/
def InvokeSetStakingHooks {Hook K : Type} (mapsKeys : List String)
    (config : Option Module) (keeper : Option K) (stakingHooks : GoMap Hook) :
    InvokeResult Hook :=
  match keeper, config with
  | none, _ => { err := none, setHooks := [] }
  | _, none => { err := none, setHooks := [] }
  | some _, some config =>
    let modNames := mapsKeys
    let order := config.HooksOrder
    -- `order = modNames` shares the backing array, so `sort.Strings(order)`
    -- sorts `modNames` as well
    let (order, modNames) :=
      if order.length = 0 then (sortStrings modNames, sortStrings modNames)
      else (order, modNames)
    if order.length ≠ modNames.length then
      { err := some (.lenMismatch order modNames), setHooks := [] }
    else if modNames.length = 0 then
      { err := none, setHooks := [] }
    else
      match collectHooks stakingHooks order [] with
      | .error modName => { err := some (.missingHooks modName), setHooks := [] }
      | .ok multiHooks => { err := none, setHooks := [multiHooks] }

/-! ## `ProvideAddressCodec` -/

/-- How a call ends: it returns a value, or it does not return (a Go `panic`,
a fatal configuration error) and carries the reason. -/
inductive Outcome (ε α : Type) where
  | returns (value : α)
  | panics (reason : ε)
deriving DecidableEq, Repr

/-- The struct `AddressCodecInputs` of lines 207-215.  `Config` and
`AuthConfig` are the objects the two pointers refer to, the two factories are
optional function values (`none` is nil).  Both pointers are required
dependencies and are taken to be non-nil.  The field `AccountKeeper` is not
read by `ProvideAddressCodec` and is left out. -/
structure AddressCodecInputs (Codec : Type) where
  Config : Module
  AuthConfig : AuthModule
  ValidatorAddressCodecFactory : Option (Unit → Codec)
  ConsensusAddressCodecFactory : Option (Unit → Codec)

/-- The message of the `panic` of line 225. -/
def incompletePairMsg : String :=
  "either both or none of validator and consensus address codecs must be provided"

/-- The message of the `panic` of line 239. -/
def missingPrefixMsg : String :=
  "bech32 prefixes for validator and/or consensus addresses must be provided (cannot fallback to auth bech32 prefixes)"

/-- Outcome of a call of `ProvideAddressCodec`: the two configuration objects
as they are after the call (the function writes through the pointer
`in.Config`), and the pair of codecs returned or the message of the `panic`. -/
structure ProvideAddressCodecResult (Codec : Type) where
  Config : Module
  AuthConfig : AuthModule
  out : Outcome String (Codec × Codec)
deriving DecidableEq, Repr

/-- The function `ProvideAddressCodec` of lines 219-243.  `NewBech32Codec` is
`authcodec.NewBech32Codec`, a constructor of another package.
`fmt.Sprintf("%svaloper", p)` is `p ++ "valoper"`. -/
def ProvideAddressCodec {Codec : Type} (NewBech32Codec : String → Codec)
    (inp : AddressCodecInputs Codec) : ProvideAddressCodecResult Codec :=
  match inp.ValidatorAddressCodecFactory, inp.ConsensusAddressCodecFactory with
  | some validatorFactory, some consensusFactory =>
    { Config := inp.Config, AuthConfig := inp.AuthConfig,
      out := .returns (validatorFactory (), consensusFactory ()) }
  | some _, none =>
    { Config := inp.Config, AuthConfig := inp.AuthConfig, out := .panics incompletePairMsg }
  | none, some _ =>
    { Config := inp.Config, AuthConfig := inp.AuthConfig, out := .panics incompletePairMsg }
  | none, none =>
    let config := inp.Config
    let config :=
      if inp.AuthConfig.Bech32Prefix ≠ "" then
        let config :=
          if config.Bech32PrefixValidator = "" then
            { config with Bech32PrefixValidator := inp.AuthConfig.Bech32Prefix ++ "valoper" }
          else config
        if config.Bech32PrefixConsensus = "" then
          { config with Bech32PrefixConsensus := inp.AuthConfig.Bech32Prefix ++ "valcons" }
        else config
      else config
    if config.Bech32PrefixValidator = "" ∨ config.Bech32PrefixConsensus = "" then
      { Config := config, AuthConfig := inp.AuthConfig, out := .panics missingPrefixMsg }
    else
      { Config := config, AuthConfig := inp.AuthConfig,
        out := .returns (NewBech32Codec config.Bech32PrefixValidator,
          NewBech32Codec config.Bech32PrefixConsensus) }

/-! ## `ProvideModule` -/

/-- What `ProvideModule` uses from the packages `authtypes`, `sdk` and
`types`, none of which is in `module.go`: the constant `types.GovModuleName`,
the functions `authtypes.NewModuleAddress` and
`authtypes.NewModuleAddressOrBech32Address`, and the method
`AccAddress.String`.  Both functions are typed as at their call sites (lines
270 and 272): each returns a single address value, with no error. -/
structure AddressEnv (Addr : Type) where
  GovModuleName : String
  NewModuleAddress : String → Addr
  NewModuleAddressOrBech32Address : String → Addr
  AccAddressString : Addr → String

/-- The struct `ModuleInputs` of lines 245-258; the collaborators are kept
abstract, `Config` is the object behind the (non-nil) pointer, and the optional
`LegacySubspace` is `none` when absent. -/
structure ModuleInputs (Codec AK BK Cdc Store Subspace : Type) where
  Config : Module
  ValidatorAddressCodec : Codec
  ConsensusAddressCodec : Codec
  AccountKeeper : AK
  BankKeeper : BK
  Cdc : Cdc
  StoreService : Store
  LegacySubspace : Option Subspace

/-- A keeper, represented by the arguments `keeper.NewKeeper` was called with
(lines 275-283), in the order of the call. -/
structure Keeper (Codec AK BK Cdc Store : Type) where
  cdc : Cdc
  storeService : Store
  ak : AK
  bk : BK
  authority : String
  validatorAddressCodec : Codec
  consensusAddressCodec : Codec
deriving DecidableEq, Repr

/-- The struct `AppModuleBasic` of lines 48-51. -/
structure AppModuleBasic (AK Cdc : Type) where
  cdc : Cdc
  ak : AK
deriving DecidableEq, Repr

/-- The struct `AppModule` of lines 99-108. -/
structure AppModule (Codec AK BK Cdc Store Subspace : Type) where
  toAppModuleBasic : AppModuleBasic AK Cdc
  keeper : Keeper Codec AK BK Cdc Store
  accountKeeper : AK
  bankKeeper : BK
  legacySubspace : Option Subspace
deriving DecidableEq, Repr

/-- The function `NewAppModule` of lines 111-125. -/
def NewAppModule {Codec AK BK Cdc Store Subspace : Type} (cdc : Cdc)
    (keeper : Keeper Codec AK BK Cdc Store) (ak : AK) (bk : BK) (ls : Option Subspace) :
    AppModule Codec AK BK Cdc Store Subspace :=
  { toAppModuleBasic := { cdc := cdc, ak := ak }
    keeper := keeper
    accountKeeper := ak
    bankKeeper := bk
    legacySubspace := ls }

/-- The struct `ModuleOutputs` of lines 261-266. -/
structure ModuleOutputs (Codec AK BK Cdc Store Subspace : Type) where
  StakingKeeper : Keeper Codec AK BK Cdc Store
  Module : AppModule Codec AK BK Cdc Store Subspace
deriving DecidableEq, Repr

/-- The function `ProvideModule` of lines 268-286.  Its Go result type is
`ModuleOutputs`: the body has no `panic`, no error check and no early return,
so every call builds the keeper and returns it. -/
def ProvideModule {Addr Codec AK BK Cdc Store Subspace : Type} (env : AddressEnv Addr)
    (inp : ModuleInputs Codec AK BK Cdc Store Subspace) :
    ModuleOutputs Codec AK BK Cdc Store Subspace :=
  -- default to governance authority if not provided
  let authority := env.NewModuleAddress env.GovModuleName
  let authority :=
    if inp.Config.Authority ≠ "" then env.NewModuleAddressOrBech32Address inp.Config.Authority
    else authority
  let k : Keeper Codec AK BK Cdc Store :=
    { cdc := inp.Cdc
      storeService := inp.StoreService
      ak := inp.AccountKeeper
      bk := inp.BankKeeper
      authority := env.AccAddressString authority
      validatorAddressCodec := inp.ValidatorAddressCodec
      consensusAddressCodec := inp.ConsensusAddressCodec }
  let m := NewAppModule inp.Cdc k inp.AccountKeeper inp.BankKeeper inp.LegacySubspace
  { StakingKeeper := k, Module := m }

/-! ## `AppModule.RegisterServices` -/

/-- The constant `consensusVersion` of line 36. -/
def consensusVersion : Nat := 5

/-- The method `AppModule.ConsensusVersion` of line 185. -/
def AppModule.ConsensusVersion : Nat := consensusVersion

/-- The four methods of the migrator `m` that are handed to the configurator. -/
inductive MigrationHandler where
  | Migrate1to2
  | Migrate2to3
  | Migrate3to4
  | Migrate4to5
deriving DecidableEq, Repr

/-- The arguments of one call `cfg.RegisterMigration(moduleName, fromVersion, handler)`. -/
structure MigrationCall where
  moduleName : String
  fromVersion : Nat
  handler : MigrationHandler
deriving DecidableEq, Repr

/-- The interface `module.Configurator` as a state machine over its internal
state `σ`: the two service registrations, and `RegisterMigration`, which
returns an `error` (`none` is nil). -/
structure Configurator (σ ε : Type) where
  RegisterMsgServer : σ → σ
  RegisterQueryServer : σ → σ
  RegisterMigration : σ → String → Nat → MigrationHandler → σ × Option ε

/-- The value of a `panic` of lines 156-165, "failed to migrate x/%s from
version %d to %d: %v", as the values formatted into it. -/
structure MigrationPanic (ε : Type) where
  moduleName : String
  fromVersion : Nat
  toVersion : Nat
  err : ε
deriving DecidableEq, Repr

/-- Outcome of a call of `RegisterServices`: the state the configurator is
left in, and the `panic` that ended the call, if any. -/
structure RegisterServicesResult (σ ε : Type) where
  state : σ
  panic : Option (MigrationPanic ε)
deriving DecidableEq, Repr

/-- The method `AppModule.RegisterServices` of lines 149-167.  `ModuleName` is
the constant `types.ModuleName`; the receiver only supplies the keeper and the
legacy subspace the servers and the migrator are built from. -/
def AppModule.RegisterServices {σ ε : Type} (ModuleName : String) (cfg : Configurator σ ε)
    (s : σ) : RegisterServicesResult σ ε :=
  let s := cfg.RegisterMsgServer s
  let s := cfg.RegisterQueryServer s
  match cfg.RegisterMigration s ModuleName 1 .Migrate1to2 with
  | (s, some err) => { state := s, panic := some ⟨ModuleName, 1, 2, err⟩ }
  | (s, none) =>
  match cfg.RegisterMigration s ModuleName 2 .Migrate2to3 with
  | (s, some err) => { state := s, panic := some ⟨ModuleName, 2, 3, err⟩ }
  | (s, none) =>
  match cfg.RegisterMigration s ModuleName 3 .Migrate3to4 with
  | (s, some err) => { state := s, panic := some ⟨ModuleName, 3, 4, err⟩ }
  | (s, none) =>
  match cfg.RegisterMigration s ModuleName 4 .Migrate4to5 with
  | (s, some err) => { state := s, panic := some ⟨ModuleName, 4, 5, err⟩ }
  | (s, none) => { state := s, panic := none }

/-- A configurator observed from outside: it behaves as `cfg` and appends to
a log, kept next to the state of `cfg`, the arguments of every call of
`RegisterMigration` it receives together with the error it answers. -/
def Configurator.recording {σ ε : Type} (cfg : Configurator σ ε) :
    Configurator (σ × List (MigrationCall × Option ε)) ε where
  RegisterMsgServer := fun st => (cfg.RegisterMsgServer st.1, st.2)
  RegisterQueryServer := fun st => (cfg.RegisterQueryServer st.1, st.2)
  RegisterMigration := fun st n v h =>
    (((cfg.RegisterMigration st.1 n v h).1,
      st.2 ++ [(⟨n, v, h⟩, (cfg.RegisterMigration st.1 n v h).2)]),
     (cfg.RegisterMigration st.1 n v h).2)

/-! ## Concrete collaborators for the worked instances -/

/-- A configurator that rejects duplicates: its state is the list of the
registrations accepted so far, and a registration for a module name and
from-version that is already in the list is answered with an error. -/
def duplicateRejecting : Configurator (List MigrationCall) String where
  RegisterMsgServer := fun s => s
  RegisterQueryServer := fun s => s
  RegisterMigration := fun s n v h =>
    if s.any (fun c => c.moduleName = n ∧ c.fromVersion = v) then
      (s, some "duplicate migration")
    else (s ++ [⟨n, v, h⟩], none)

/-- An address environment used in the worked instances: addresses are
strings, the address of a module is its name after "module/", and
`NewModuleAddressOrBech32Address` keeps the one address string
"cosmos1authority" and takes every other input for a module name. -/
def sampleAddressEnv : AddressEnv String where
  GovModuleName := "gov"
  NewModuleAddress := fun name => "module/" ++ name
  NewModuleAddressOrBech32Address := fun input =>
    if input = "cosmos1authority" then input else "module/" ++ input
  AccAddressString := fun addr => addr

/-! ## Facts about the order on strings and `sort.Strings` -/

theorem lexLess_iff_lex : ∀ (l₁ l₂ : List Char),
    lexLess l₁ l₂ = true ↔ List.Lex (fun a b => a < b) l₁ l₂
  | [], [] => by simp [lexLess]
  | _ :: _, [] => by simp [lexLess]
  | [], d :: ds => by simp [lexLess, List.Lex.nil]
  | c :: cs, d :: ds => by
    rw [lexLess]
    have ih := lexLess_iff_lex cs ds
    by_cases h : c < d
    · simp only [h, if_true, true_iff]
      exact List.Lex.rel h
    · by_cases h2 : c = d
      · subst h2
        simp only [h, if_false, if_true, ih]
        exact List.Lex.cons_iff.symm
      · simp only [h, h2, if_false, Bool.false_eq_true, false_iff]
        intro hl
        cases hl with
        | cons _ => exact h2 rfl
        | rel hr => exact h hr

/-- The comparison computed by `lexLess` is the lexicographic order `<` of
`String`. -/
theorem lexLess_iff_lt (a b : String) : lexLess a.data b.data = true ↔ a < b := by
  rw [lexLess_iff_lex, String.lt_iff_toList_lt]
  exact Iff.rfl

theorem stringLE_iff_le (a b : String) : stringLE a b = true ↔ a ≤ b := by
  unfold stringLE
  rw [Bool.not_eq_true', ← Bool.not_eq_true, lexLess_iff_lt, not_lt]

theorem sortStrings_perm (x : List String) : (sortStrings x).Perm x :=
  List.perm_insertionSort _ x

theorem sortStrings_length (x : List String) : (sortStrings x).length = x.length :=
  (sortStrings_perm x).length_eq

theorem sortStrings_sorted_le (x : List String) :
    (sortStrings x).Sorted (fun a b => a ≤ b) := by
  have hfun : (fun a b : String => stringLE a b = true) = (fun a b => a ≤ b) := by
    funext a b
    exact propext (stringLE_iff_le a b)
  unfold sortStrings
  have key : ∀ (r : String → String → Prop) [DecidableRel r], r = (fun a b => a ≤ b) →
      (x.insertionSort r).Sorted (fun a b => a ≤ b) := by
    intro r _ hr
    subst hr
    exact List.sorted_insertionSort _ x
  exact key _ hfun

/-- Sorting a duplicate-free slice gives a strictly increasing one. -/
theorem sortStrings_sorted_lt (x : List String) (hx : x.Nodup) :
    (sortStrings x).Sorted (fun a b => a < b) :=
  (sortStrings_sorted_le x).lt_of_le ((sortStrings_perm x).nodup_iff.mpr hx)

/-- The sorted slice depends only on the elements, not on their order. -/
theorem sortStrings_congr {x y : List String} (h : x.Perm y) :
    sortStrings x = sortStrings y :=
  List.eq_of_perm_of_sorted (r := fun a b : String => a ≤ b)
    (((sortStrings_perm x).trans h).trans (sortStrings_perm y).symm)
    (sortStrings_sorted_le x) (sortStrings_sorted_le y)

/-! ## Facts about the lookup loop -/

theorem GoMap.get_isSome_of_mem_keys {V : Type} (m : GoMap V) (k : String)
    (hk : k ∈ m.keys) : ∃ v, m.get k = some v := by
  induction m with
  | nil => simp [GoMap.keys] at hk
  | cons p m ih =>
    obtain ⟨k', v'⟩ := p
    by_cases hkk : k = k'
    · subst hkk
      exact ⟨v', by simp [GoMap.get, List.lookup]⟩
    · have hk' : k ∈ GoMap.keys m := by
        simp only [GoMap.keys, List.map_cons, List.mem_cons] at hk
        rcases hk with h | h
        · exact absurd h hkk
        · exact h
      obtain ⟨v, hv⟩ := ih hk'
      refine ⟨v, ?_⟩
      have hb : (k == k') = false := by simpa using hkk
      simpa [GoMap.get, List.lookup, hb] using hv

theorem GoMap.get_eq_none_of_not_mem_keys {V : Type} (m : GoMap V) (k : String)
    (hk : k ∉ m.keys) : m.get k = none := by
  induction m with
  | nil => rfl
  | cons p m ih =>
    obtain ⟨k', v'⟩ := p
    simp only [GoMap.keys, List.map_cons, List.mem_cons, not_or] at hk
    have hb : (k == k') = false := by simpa using hk.1
    have := ih hk.2
    simpa [GoMap.get, List.lookup, hb] using this

/-- When every name of `order` is a key, the loop runs to its end and appends
to `multiHooks` the hook of each name, in the order of `order`. -/
theorem collectHooks_ok {Hook : Type} (m : GoMap Hook) :
    ∀ (order : List String) (acc : List Hook), (∀ n ∈ order, n ∈ m.keys) →
      ∃ hooks, collectHooks m order acc = .ok (acc ++ hooks) ∧
        order.map m.get = hooks.map some
  | [], acc, _ => ⟨[], by simp [collectHooks], rfl⟩
  | n :: rest, acc, h => by
    obtain ⟨v, hv⟩ := m.get_isSome_of_mem_keys n (h n (List.mem_cons_self _ _))
    obtain ⟨hooks, h1, h2⟩ := collectHooks_ok m rest (acc ++ [v])
      (fun k hk => h k (List.mem_cons_of_mem _ hk))
    refine ⟨v :: hooks, ?_, ?_⟩
    · simp only [collectHooks, hv, h1]
      simp
    · simp [hv, h2]

/-- A name of `order` without an entry in the map makes the loop stop with an
error. -/
theorem collectHooks_error {Hook : Type} (m : GoMap Hook) :
    ∀ (order : List String) (acc : List Hook), (∃ n ∈ order, n ∉ m.keys) →
      ∃ modName, collectHooks m order acc = .error modName
  | [], _, h => by simp at h
  | n :: rest, acc, h => by
    cases hn : m.get n with
    | none => exact ⟨n, by simp [collectHooks, hn]⟩
    | some v =>
      have hmem : n ∈ m.keys := by
        by_contra hc
        rw [m.get_eq_none_of_not_mem_keys n hc] at hn
        cases hn
      obtain ⟨k, hk, hk2⟩ := h
      have hk' : k ∈ rest := by
        rcases List.mem_cons.mp hk with h0 | h0
        · exact absurd (h0 ▸ hmem) hk2
        · exact h0
      obtain ⟨modName, hm⟩ := collectHooks_error m rest (acc ++ [v]) ⟨k, hk', hk2⟩
      exact ⟨modName, by simp [collectHooks, hn, hm]⟩

/-! ## The four paths through `InvokeSetStakingHooks` -/

theorem invoke_order_lenMismatch {Hook K : Type} (mapsKeys : List String)
    (config : Module) (keeper : K) (m : GoMap Hook)
    (h0 : config.HooksOrder ≠ []) (hlen : config.HooksOrder.length ≠ mapsKeys.length) :
    InvokeSetStakingHooks mapsKeys (some config) (some keeper) m =
      { err := some (.lenMismatch config.HooksOrder mapsKeys), setHooks := [] } := by
  have h0' : config.HooksOrder.length ≠ 0 := by simpa using h0
  simp [InvokeSetStakingHooks, h0', hlen]

theorem invoke_order_loop {Hook K : Type} (mapsKeys : List String)
    (config : Module) (keeper : K) (m : GoMap Hook)
    (h0 : config.HooksOrder ≠ []) (hlen : config.HooksOrder.length = mapsKeys.length) :
    InvokeSetStakingHooks mapsKeys (some config) (some keeper) m =
      match collectHooks m config.HooksOrder [] with
      | .error modName => { err := some (.missingHooks modName), setHooks := [] }
      | .ok multiHooks => { err := none, setHooks := [multiHooks] } := by
  have h0' : config.HooksOrder.length ≠ 0 := by simpa using h0
  have h1 : mapsKeys.length ≠ 0 := hlen ▸ h0'
  simp [InvokeSetStakingHooks, h0', hlen, h1]

theorem invoke_default_empty {Hook K : Type}
    (config : Module) (keeper : K) (m : GoMap Hook) (h0 : config.HooksOrder = []) :
    InvokeSetStakingHooks [] (some config) (some keeper) m = { err := none, setHooks := [] } := by
  simp [InvokeSetStakingHooks, h0, sortStrings]

theorem invoke_default_loop {Hook K : Type} (mapsKeys : List String)
    (config : Module) (keeper : K) (m : GoMap Hook)
    (h0 : config.HooksOrder = []) (h1 : mapsKeys ≠ []) :
    InvokeSetStakingHooks mapsKeys (some config) (some keeper) m =
      match collectHooks m (sortStrings mapsKeys) [] with
      | .error modName => { err := some (.missingHooks modName), setHooks := [] }
      | .ok multiHooks => { err := none, setHooks := [multiHooks] } := by
  have h2 : (sortStrings mapsKeys).length ≠ 0 := by
    rw [sortStrings_length]
    simpa using h1
  simp [InvokeSetStakingHooks, h0, h2]

theorem GoMap.keys_eq_nil {V : Type} (m : GoMap V) : m.keys = [] ↔ m = [] := by
  simp [GoMap.keys]

/-! ## Claims about `InvokeSetStakingHooks` -/

/-- C1: when `config.HooksOrder` is a permutation of the keys of the provider
map (keeper and config non-nil), `InvokeSetStakingHooks` returns nil, and for
a non-empty map it calls `keeper.SetHooks` exactly once, with the hooks of
the names of `HooksOrder` in the order of `HooksOrder`. -/
theorem InvokeSetStakingHooks_follows_HooksOrder {Hook K : Type}
    (mapsKeys : List String) (config : Module) (keeper : K) (stakingHooks : GoMap Hook)
    (_hwf : stakingHooks.WF) (hkeys : IsKeysEnumeration stakingHooks mapsKeys)
    (horder : config.HooksOrder.Perm stakingHooks.keys) :
    (InvokeSetStakingHooks mapsKeys (some config) (some keeper) stakingHooks).err = none ∧
    (stakingHooks ≠ [] → ∃ multiHooks,
      (InvokeSetStakingHooks mapsKeys (some config) (some keeper) stakingHooks).setHooks
        = [multiHooks] ∧
      config.HooksOrder.map stakingHooks.get = multiHooks.map some) := by
  by_cases hm : stakingHooks = []
  · subst hm
    have h0 : config.HooksOrder = [] := List.Perm.eq_nil horder
    have hk : mapsKeys = [] := List.Perm.eq_nil hkeys
    subst hk
    rw [invoke_default_empty config keeper [] h0]
    exact ⟨rfl, fun h => absurd rfl h⟩
  · have hk0 : stakingHooks.keys ≠ [] := fun h => hm ((GoMap.keys_eq_nil _).mp h)
    have h0 : config.HooksOrder ≠ [] := fun h => hk0 (List.Perm.nil_eq (h ▸ horder)).symm
    have hlen : config.HooksOrder.length = mapsKeys.length := by
      rw [horder.length_eq, hkeys.length_eq]
    obtain ⟨hooks, h1, h2⟩ := collectHooks_ok stakingHooks config.HooksOrder []
      (fun n hn => horder.subset hn)
    rw [invoke_order_loop mapsKeys config keeper stakingHooks h0 hlen, h1]
    exact ⟨rfl, fun _ => ⟨hooks, by simp, h2⟩⟩

/-- Witness for C1: three providers, enumerated by `maps.Keys` in one order
and ordered by the configuration in another. -/
theorem InvokeSetStakingHooks_follows_HooksOrder_witness :
    (InvokeSetStakingHooks ["slashing", "gov", "distribution"]
        (some ⟨["gov", "slashing", "distribution"], "", "", ""⟩) (some ())
        [("distribution", 10), ("gov", 20), ("slashing", 30)]).err = none ∧
    (([("distribution", 10), ("gov", 20), ("slashing", 30)] : GoMap Nat) ≠ [] →
      ∃ multiHooks,
        (InvokeSetStakingHooks ["slashing", "gov", "distribution"]
          (some ⟨["gov", "slashing", "distribution"], "", "", ""⟩) (some ())
          [("distribution", 10), ("gov", 20), ("slashing", 30)]).setHooks = [multiHooks] ∧
        (["gov", "slashing", "distribution"] : List String).map
          (GoMap.get [("distribution", 10), ("gov", 20), ("slashing", 30)])
          = multiHooks.map some) :=
  InvokeSetStakingHooks_follows_HooksOrder ["slashing", "gov", "distribution"]
    ⟨["gov", "slashing", "distribution"], "", "", ""⟩ ()
    [("distribution", 10), ("gov", 20), ("slashing", 30)]
    (by decide) (by decide) (by decide)

/-- C2: with an empty `config.HooksOrder` and a non-empty provider map
(keeper and config non-nil), `InvokeSetStakingHooks` returns nil and hands
`keeper.SetHooks`, in one call, the hooks of the keys in strictly increasing
lexicographic order; two enumerations `mapsKeys`, `mapsKeys2` of the keys by
`maps.Keys` give the same installed sequence. -/
theorem InvokeSetStakingHooks_default_order_sorted {Hook K : Type}
    (mapsKeys mapsKeys2 : List String) (config : Module) (keeper : K)
    (stakingHooks : GoMap Hook) (hwf : stakingHooks.WF) (hne : stakingHooks ≠ [])
    (h0 : config.HooksOrder = [])
    (hkeys : IsKeysEnumeration stakingHooks mapsKeys)
    (hkeys2 : IsKeysEnumeration stakingHooks mapsKeys2) :
    ∃ (names : List String) (multiHooks : List Hook),
      names.Perm stakingHooks.keys ∧ names.Sorted (fun a b => a < b) ∧
      names.map stakingHooks.get = multiHooks.map some ∧
      InvokeSetStakingHooks mapsKeys (some config) (some keeper) stakingHooks
        = { err := none, setHooks := [multiHooks] } ∧
      InvokeSetStakingHooks mapsKeys2 (some config) (some keeper) stakingHooks
        = { err := none, setHooks := [multiHooks] } := by
  have hk0 : stakingHooks.keys ≠ [] := fun h => hne ((GoMap.keys_eq_nil _).mp h)
  have hn1 : mapsKeys ≠ [] := fun h => hk0 (List.Perm.nil_eq (h ▸ hkeys)).symm
  have hn2 : mapsKeys2 ≠ [] := fun h => hk0 (List.Perm.nil_eq (h ▸ hkeys2)).symm
  have hperm : (sortStrings mapsKeys).Perm stakingHooks.keys :=
    (sortStrings_perm mapsKeys).trans hkeys
  have hsame : sortStrings mapsKeys2 = sortStrings mapsKeys :=
    sortStrings_congr (hkeys2.trans hkeys.symm)
  obtain ⟨hooks, h1, h2⟩ := collectHooks_ok stakingHooks (sortStrings mapsKeys) []
    (fun n hn => hperm.subset hn)
  refine ⟨sortStrings mapsKeys, hooks, hperm, ?_, h2, ?_, ?_⟩
  · exact sortStrings_sorted_lt mapsKeys (hkeys.nodup_iff.mpr hwf)
  · rw [invoke_default_loop mapsKeys config keeper stakingHooks h0 hn1, h1]
    simp
  · rw [invoke_default_loop mapsKeys2 config keeper stakingHooks h0 hn2, hsame, h1]
    simp

/-- Witness for C2: three providers, two different enumerations of the keys,
no configured order. -/
theorem InvokeSetStakingHooks_default_order_sorted_witness :
    ∃ (names : List String) (multiHooks : List Nat),
      names.Perm (GoMap.keys [("gov", 20), ("slashing", 30), ("distribution", 10)]) ∧
      names.Sorted (fun a b => a < b) ∧
      names.map (GoMap.get [("gov", 20), ("slashing", 30), ("distribution", 10)])
        = multiHooks.map some ∧
      InvokeSetStakingHooks ["slashing", "gov", "distribution"] (some ⟨[], "", "", ""⟩)
        (some ()) [("gov", 20), ("slashing", 30), ("distribution", 10)]
        = { err := none, setHooks := [multiHooks] } ∧
      InvokeSetStakingHooks ["distribution", "slashing", "gov"] (some ⟨[], "", "", ""⟩)
        (some ()) [("gov", 20), ("slashing", 30), ("distribution", 10)]
        = { err := none, setHooks := [multiHooks] } :=
  InvokeSetStakingHooks_default_order_sorted ["slashing", "gov", "distribution"]
    ["distribution", "slashing", "gov"] ⟨[], "", "", ""⟩ ()
    [("gov", 20), ("slashing", 30), ("distribution", 10)]
    (by decide) (by decide) rfl (by decide) (by decide)

/-- What the two checks of `InvokeSetStakingHooks` do catch: a non-empty
`HooksOrder` without repeated names whose names are not exactly the keys of
the map is rejected with an error, and `keeper.SetHooks` is not called. -/
theorem InvokeSetStakingHooks_rejects_mismatch_without_repeats {Hook K : Type}
    (mapsKeys : List String) (config : Module) (keeper : K) (stakingHooks : GoMap Hook)
    (_hwf : stakingHooks.WF) (hkeys : IsKeysEnumeration stakingHooks mapsKeys)
    (h0 : config.HooksOrder ≠ []) (hnodup : config.HooksOrder.Nodup)
    (hset : ¬ ∀ n, n ∈ config.HooksOrder ↔ n ∈ stakingHooks.keys) :
    (InvokeSetStakingHooks mapsKeys (some config) (some keeper) stakingHooks).err ≠ none ∧
    (InvokeSetStakingHooks mapsKeys (some config) (some keeper) stakingHooks).setHooks = [] := by
  by_cases hlen : config.HooksOrder.length = mapsKeys.length
  · have hmiss : ∃ n ∈ config.HooksOrder, n ∉ stakingHooks.keys := by
      by_contra hc
      push_neg at hc
      have hsub : config.HooksOrder ⊆ stakingHooks.keys := fun n hn => hc n hn
      have hle : stakingHooks.keys.length ≤ config.HooksOrder.length := by
        rw [hlen, hkeys.length_eq]
      have hsub2 : stakingHooks.keys ⊆ config.HooksOrder :=
        ((List.subperm_of_subset hnodup hsub).perm_of_length_le hle).symm.subset
      exact hset (fun n => ⟨fun hn => hsub hn, fun hn => hsub2 hn⟩)
    obtain ⟨modName, hm⟩ := collectHooks_error stakingHooks config.HooksOrder [] hmiss
    rw [invoke_order_loop mapsKeys config keeper stakingHooks h0 hlen, hm]
    simp
  · rw [invoke_order_lenMismatch mapsKeys config keeper stakingHooks h0 hlen]
    simp

/-- C3 fails on the code: with providers `distribution` and `slashing` and
`HooksOrder = ["slashing", "slashing"]` the set of ordered names differs from
the set of keys (`distribution` is omitted, `slashing` repeated), yet
`InvokeSetStakingHooks` returns nil and calls `keeper.SetHooks` with the hook
of `slashing` twice. -/
theorem InvokeSetStakingHooks_accepts_repeated_name :
    GoMap.WF ([("distribution", 10), ("slashing", 30)] : GoMap Nat) ∧
    IsKeysEnumeration ([("distribution", 10), ("slashing", 30)] : GoMap Nat)
      ["slashing", "distribution"] ∧
    "distribution" ∈ GoMap.keys ([("distribution", 10), ("slashing", 30)] : GoMap Nat) ∧
    "distribution" ∉ ["slashing", "slashing"] ∧
    InvokeSetStakingHooks ["slashing", "distribution"]
      (some ⟨["slashing", "slashing"], "", "", ""⟩) (some ())
      [("distribution", 10), ("slashing", 30)] = { err := none, setHooks := [[30, 30]] } := by
  decide

/-- C4 as stated fails: with an empty provider map and the non-empty
`HooksOrder = ["gov"]` (keeper and config non-nil) the call returns the
length-mismatch error of line 306, not nil. -/
theorem InvokeSetStakingHooks_empty_map_nonempty_order_errors :
    (InvokeSetStakingHooks [] (some ⟨["gov"], "", "", ""⟩) (some ()) ([] : GoMap Nat)).err
      = some (.lenMismatch ["gov"] []) ∧
    (InvokeSetStakingHooks [] (some ⟨["gov"], "", "", ""⟩) (some ()) ([] : GoMap Nat)).err
      ≠ none := by
  decide

/-- C4, amended: with an empty provider map `keeper.SetHooks` is never called;
the call returns nil when keeper or config is nil or `HooksOrder` is empty,
and with keeper and config non-nil and a non-empty `HooksOrder` it returns the
length-mismatch error. -/
theorem InvokeSetStakingHooks_empty_map {Hook K : Type} (mapsKeys : List String)
    (config : Option Module) (keeper : Option K)
    (hkeys : IsKeysEnumeration ([] : GoMap Hook) mapsKeys) :
    (InvokeSetStakingHooks mapsKeys config keeper ([] : GoMap Hook)).setHooks = [] ∧
    (keeper = none ∨ config = none →
      (InvokeSetStakingHooks mapsKeys config keeper ([] : GoMap Hook)).err = none) ∧
    (∀ c, config = some c → c.HooksOrder = [] →
      (InvokeSetStakingHooks mapsKeys config keeper ([] : GoMap Hook)).err = none) ∧
    (∀ c k, config = some c → keeper = some k → c.HooksOrder ≠ [] →
      (InvokeSetStakingHooks mapsKeys config keeper ([] : GoMap Hook)).err
        = some (.lenMismatch c.HooksOrder [])) := by
  have hk : mapsKeys = [] := List.Perm.eq_nil hkeys
  subst hk
  cases keeper with
  | none => cases config <;> simp [InvokeSetStakingHooks]
  | some k =>
    cases config with
    | none => simp [InvokeSetStakingHooks]
    | some c =>
      by_cases h0 : c.HooksOrder = []
      · rw [invoke_default_empty c k [] h0]
        simp [h0]
      · have hlen : c.HooksOrder.length ≠ ([] : List String).length := by simpa using h0
        rw [invoke_order_lenMismatch [] c k [] h0 hlen]
        simp [h0]

/-- Witness for C4, amended: the empty map with a configured order. -/
theorem InvokeSetStakingHooks_empty_map_witness :
    (InvokeSetStakingHooks [] (some ⟨["gov"], "", "", ""⟩) (some ()) ([] : GoMap Nat)).setHooks
      = [] ∧
    (InvokeSetStakingHooks [] (none : Option Module) (some ()) ([] : GoMap Nat)).err = none :=
  ⟨(InvokeSetStakingHooks_empty_map [] (some ⟨["gov"], "", "", ""⟩) (some ())
      (by decide)).1,
   (InvokeSetStakingHooks_empty_map [] none (some ()) (by decide)).2.1 (Or.inr rfl)⟩

/-! ## Claims about `ProvideAddressCodec` -/

theorem append_ne_empty (p suffix : String) (hp : p ≠ "") : p ++ suffix ≠ "" := by
  intro h
  have hlen : (p ++ suffix).length = 0 := by rw [h]; rfl
  rw [String.length_append] at hlen
  have hp0 : p.length = 0 := by omega
  apply hp
  have hd : p.data = [] := List.length_eq_zero.mp hp0
  exact String.ext hd

/-- C5: the explicit codec factories are all-or-nothing.  Whatever the three
configured prefixes are, exactly one factory makes `ProvideAddressCodec` panic
with the message of line 225, and two factories make it return exactly the
two codecs the factories produce. -/
theorem ProvideAddressCodec_factories_all_or_nothing {Codec : Type}
    (NewBech32Codec : String → Codec) (config : Module) (authConfig : AuthModule)
    (validatorFactory consensusFactory : Unit → Codec) :
    (ProvideAddressCodec NewBech32Codec
        ⟨config, authConfig, some validatorFactory, none⟩).out = .panics incompletePairMsg ∧
    (ProvideAddressCodec NewBech32Codec
        ⟨config, authConfig, none, some consensusFactory⟩).out = .panics incompletePairMsg ∧
    (ProvideAddressCodec NewBech32Codec
        ⟨config, authConfig, some validatorFactory, some consensusFactory⟩).out
      = .returns (validatorFactory (), consensusFactory ()) :=
  ⟨rfl, rfl, rfl⟩

/-- C6: without factories and with a non-empty `AuthConfig.Bech32Prefix`,
`ProvideAddressCodec` returns the Bech32 codecs of the configured prefixes,
where an empty validator prefix is replaced by the auth prefix followed by
"valoper" and an empty consensus prefix by the auth prefix followed by
"valcons". -/
theorem ProvideAddressCodec_derives_from_auth {Codec : Type}
    (NewBech32Codec : String → Codec) (config : Module) (authConfig : AuthModule)
    (hb : authConfig.Bech32Prefix ≠ "") :
    (ProvideAddressCodec NewBech32Codec ⟨config, authConfig, none, none⟩).out =
      .returns
        (NewBech32Codec (if config.Bech32PrefixValidator ≠ "" then config.Bech32PrefixValidator
          else authConfig.Bech32Prefix ++ "valoper"),
         NewBech32Codec (if config.Bech32PrefixConsensus ≠ "" then config.Bech32PrefixConsensus
          else authConfig.Bech32Prefix ++ "valcons")) := by
  have h1 := append_ne_empty authConfig.Bech32Prefix "valoper" hb
  have h2 := append_ne_empty authConfig.Bech32Prefix "valcons" hb
  by_cases hv : config.Bech32PrefixValidator = "" <;>
    by_cases hc : config.Bech32PrefixConsensus = "" <;>
    simp [ProvideAddressCodec, hb, hv, hc, h1, h2]

/-- Witness for C6: the auth prefix "cosmos" with no configured prefixes gives
the codecs of "cosmosvaloper" and "cosmosvalcons" (a codec is represented by
its prefix). -/
theorem ProvideAddressCodec_derives_from_auth_witness :
    (ProvideAddressCodec (fun p : String => p)
        ⟨⟨[], "", "", ""⟩, ⟨"cosmos"⟩, none, none⟩).out
      = .returns ("cosmosvaloper", "cosmosvalcons") :=
  (ProvideAddressCodec_derives_from_auth (fun p : String => p) ⟨[], "", "", ""⟩ ⟨"cosmos"⟩
    (by decide)).trans (by decide)

/-- C7: without factories, `ProvideAddressCodec` panics with the message of
line 239 exactly when `AuthConfig.Bech32Prefix` is empty and one of the two
configured prefixes is empty; in every other case it returns a pair of
codecs. -/
theorem ProvideAddressCodec_missing_prefix_iff {Codec : Type}
    (NewBech32Codec : String → Codec) (config : Module) (authConfig : AuthModule) :
    ((ProvideAddressCodec NewBech32Codec ⟨config, authConfig, none, none⟩).out
        = .panics missingPrefixMsg ↔
      authConfig.Bech32Prefix = "" ∧
        (config.Bech32PrefixValidator = "" ∨ config.Bech32PrefixConsensus = "")) ∧
    ((∃ msg, (ProvideAddressCodec NewBech32Codec ⟨config, authConfig, none, none⟩).out
        = .panics msg) ↔
      authConfig.Bech32Prefix = "" ∧
        (config.Bech32PrefixValidator = "" ∨ config.Bech32PrefixConsensus = "")) ∧
    ((ProvideAddressCodec NewBech32Codec
        ⟨⟨config.HooksOrder, "", "", config.Authority⟩, ⟨""⟩, none, none⟩).out
      = .panics missingPrefixMsg) := by
  have h1 : ¬ authConfig.Bech32Prefix = "" → ¬ authConfig.Bech32Prefix ++ "valoper" = "" :=
    append_ne_empty _ _
  have h2 : ¬ authConfig.Bech32Prefix = "" → ¬ authConfig.Bech32Prefix ++ "valcons" = "" :=
    append_ne_empty _ _
  refine ⟨?_, ?_, rfl⟩ <;>
    by_cases hb : authConfig.Bech32Prefix = "" <;>
    by_cases hv : config.Bech32PrefixValidator = "" <;>
    by_cases hc : config.Bech32PrefixConsensus = "" <;>
    simp [ProvideAddressCodec, hb, hv, hc, h1, h2]

/-- C8 as stated fails: called without factories, with the auth prefix
"cosmos" and no configured prefixes, `ProvideAddressCodec` leaves
"cosmosvaloper" and "cosmosvalcons" in the configuration object, whose two
fields were empty before the call. -/
theorem ProvideAddressCodec_overwrites_empty_prefixes :
    (ProvideAddressCodec (fun p : String => p)
        ⟨⟨[], "", "", ""⟩, ⟨"cosmos"⟩, none, none⟩).Config.Bech32PrefixValidator
      = "cosmosvaloper" ∧
    (ProvideAddressCodec (fun p : String => p)
        ⟨⟨[], "", "", ""⟩, ⟨"cosmos"⟩, none, none⟩).Config.Bech32PrefixConsensus
      = "cosmosvalcons" ∧
    (ProvideAddressCodec (fun p : String => p)
        ⟨⟨[], "", "", ""⟩, ⟨"cosmos"⟩, none, none⟩).Config ≠ ⟨[], "", "", ""⟩ := by
  decide

/-- C8, amended: `ProvideAddressCodec` never changes the auth configuration,
`HooksOrder` or `Authority`; it leaves the whole configuration as it was when
a factory is supplied or `AuthConfig.Bech32Prefix` is empty; it keeps every
non-empty configured prefix; and without factories and with a non-empty auth
prefix it overwrites an empty `Bech32PrefixValidator` with the auth prefix
followed by "valoper" and an empty `Bech32PrefixConsensus` with the auth
prefix followed by "valcons". -/
theorem ProvideAddressCodec_frame {Codec : Type} (NewBech32Codec : String → Codec)
    (inp : AddressCodecInputs Codec) :
    (ProvideAddressCodec NewBech32Codec inp).AuthConfig = inp.AuthConfig ∧
    (ProvideAddressCodec NewBech32Codec inp).Config.HooksOrder = inp.Config.HooksOrder ∧
    (ProvideAddressCodec NewBech32Codec inp).Config.Authority = inp.Config.Authority ∧
    (inp.ValidatorAddressCodecFactory.isSome ∨ inp.ConsensusAddressCodecFactory.isSome ∨
        inp.AuthConfig.Bech32Prefix = "" →
      (ProvideAddressCodec NewBech32Codec inp).Config = inp.Config) ∧
    (inp.Config.Bech32PrefixValidator ≠ "" →
      (ProvideAddressCodec NewBech32Codec inp).Config.Bech32PrefixValidator
        = inp.Config.Bech32PrefixValidator) ∧
    (inp.Config.Bech32PrefixConsensus ≠ "" →
      (ProvideAddressCodec NewBech32Codec inp).Config.Bech32PrefixConsensus
        = inp.Config.Bech32PrefixConsensus) ∧
    (inp.ValidatorAddressCodecFactory = none → inp.ConsensusAddressCodecFactory = none →
      inp.AuthConfig.Bech32Prefix ≠ "" →
      (inp.Config.Bech32PrefixValidator = "" →
        (ProvideAddressCodec NewBech32Codec inp).Config.Bech32PrefixValidator
          = inp.AuthConfig.Bech32Prefix ++ "valoper") ∧
      (inp.Config.Bech32PrefixConsensus = "" →
        (ProvideAddressCodec NewBech32Codec inp).Config.Bech32PrefixConsensus
          = inp.AuthConfig.Bech32Prefix ++ "valcons")) := by
  obtain ⟨config, authConfig, vf, cf⟩ := inp
  have h1 : ¬ authConfig.Bech32Prefix = "" → ¬ authConfig.Bech32Prefix ++ "valoper" = "" :=
    append_ne_empty _ _
  have h2 : ¬ authConfig.Bech32Prefix = "" → ¬ authConfig.Bech32Prefix ++ "valcons" = "" :=
    append_ne_empty _ _
  cases vf <;> cases cf <;>
    by_cases hb : authConfig.Bech32Prefix = "" <;>
    by_cases hv : config.Bech32PrefixValidator = "" <;>
    by_cases hc : config.Bech32PrefixConsensus = "" <;>
    simp [ProvideAddressCodec, hb, hv, hc, h1, h2]

/-- Witness for C8, amended: a configured validator prefix is kept and the
empty consensus prefix is overwritten with the derived one. -/
theorem ProvideAddressCodec_frame_witness :
    (ProvideAddressCodec (fun p : String => p)
        ⟨⟨[], "myvaloper", "", ""⟩, ⟨"cosmos"⟩, none, none⟩).Config.Bech32PrefixValidator
      = "myvaloper" ∧
    (ProvideAddressCodec (fun p : String => p)
        ⟨⟨[], "myvaloper", "", ""⟩, ⟨"cosmos"⟩, none, none⟩).Config.Bech32PrefixConsensus
      = "cosmos" ++ "valcons" :=
  ⟨(ProvideAddressCodec_frame (fun p : String => p)
      ⟨⟨[], "myvaloper", "", ""⟩, ⟨"cosmos"⟩, none, none⟩).2.2.2.2.1 (by decide),
   ((ProvideAddressCodec_frame (fun p : String => p)
      ⟨⟨[], "myvaloper", "", ""⟩, ⟨"cosmos"⟩, none, none⟩).2.2.2.2.2.2 rfl rfl
      (by decide)).2 rfl⟩

/-! ## Claims about `AppModule.RegisterServices` -/

theorem recording_transparent {σ ε : Type} (ModuleName : String) (cfg : Configurator σ ε)
    (s : σ) (log : List (MigrationCall × Option ε)) :
    (AppModule.RegisterServices ModuleName cfg.recording (s, log)).state.1
      = (AppModule.RegisterServices ModuleName cfg s).state ∧
    (AppModule.RegisterServices ModuleName cfg.recording (s, log)).panic
      = (AppModule.RegisterServices ModuleName cfg s).panic := by
  rcases h1 : cfg.RegisterMigration (cfg.RegisterQueryServer (cfg.RegisterMsgServer s))
    ModuleName 1 .Migrate1to2 with ⟨s1, _ | e1⟩
  · rcases h2 : cfg.RegisterMigration s1 ModuleName 2 .Migrate2to3 with ⟨s2, _ | e2⟩
    · rcases h3 : cfg.RegisterMigration s2 ModuleName 3 .Migrate3to4 with ⟨s3, _ | e3⟩
      · rcases h4 : cfg.RegisterMigration s3 ModuleName 4 .Migrate4to5 with ⟨s4, _ | e4⟩ <;>
          simp [AppModule.RegisterServices, Configurator.recording, h1, h2, h3, h4]
      · simp [AppModule.RegisterServices, Configurator.recording, h1, h2, h3]
    · simp [AppModule.RegisterServices, Configurator.recording, h1, h2]
  · simp [AppModule.RegisterServices, Configurator.recording, h1]

/-- C9: `RegisterServices`, run against any configurator `cfg` from any state
`s`, with the calls `cfg` receives observed through `cfg.recording`.  When
`cfg` accepts each registration in the state it is asked in, the call does not
panic and `cfg` receives exactly `ConsensusVersion() - 1 = 4` calls of
`RegisterMigration`, for the from-versions 1, 2, 3, 4 in this order, each under
`ModuleName` and with the handler of that version.  When `cfg` rejects the
registration for a version `v` after accepting those before it, the call
panics with that error for `v`, the rejected call is the last one `cfg`
receives, and no call for a greater version is made. -/
theorem RegisterServices_registers_contiguous_migrations {σ ε : Type} (ModuleName : String)
    (cfg : Configurator σ ε) (s : σ) :
    ((AppModule.RegisterServices ModuleName cfg.recording (s, [])).state.1
        = (AppModule.RegisterServices ModuleName cfg s).state ∧
      (AppModule.RegisterServices ModuleName cfg.recording (s, [])).panic
        = (AppModule.RegisterServices ModuleName cfg s).panic) ∧
    (∀ s1 s2 s3 s4,
      cfg.RegisterMigration (cfg.RegisterQueryServer (cfg.RegisterMsgServer s))
        ModuleName 1 .Migrate1to2 = (s1, none) →
      cfg.RegisterMigration s1 ModuleName 2 .Migrate2to3 = (s2, none) →
      cfg.RegisterMigration s2 ModuleName 3 .Migrate3to4 = (s3, none) →
      cfg.RegisterMigration s3 ModuleName 4 .Migrate4to5 = (s4, none) →
      AppModule.RegisterServices ModuleName cfg s = { state := s4, panic := none } ∧
      (AppModule.RegisterServices ModuleName cfg.recording (s, [])).state.2
        = [(⟨ModuleName, 1, .Migrate1to2⟩, none), (⟨ModuleName, 2, .Migrate2to3⟩, none),
           (⟨ModuleName, 3, .Migrate3to4⟩, none), (⟨ModuleName, 4, .Migrate4to5⟩, none)] ∧
      (AppModule.RegisterServices ModuleName cfg.recording (s, [])).state.2.length
        = AppModule.ConsensusVersion - 1 ∧
      AppModule.ConsensusVersion - 1 = 4 ∧
      (AppModule.RegisterServices ModuleName cfg.recording (s, [])).state.2.map
        (fun c => c.1.fromVersion) = List.range' 1 (AppModule.ConsensusVersion - 1)) ∧
    (∀ s1 err,
      cfg.RegisterMigration (cfg.RegisterQueryServer (cfg.RegisterMsgServer s))
        ModuleName 1 .Migrate1to2 = (s1, some err) →
      AppModule.RegisterServices ModuleName cfg s
        = { state := s1, panic := some ⟨ModuleName, 1, 2, err⟩ } ∧
      (AppModule.RegisterServices ModuleName cfg.recording (s, [])).state.2
        = [(⟨ModuleName, 1, .Migrate1to2⟩, some err)]) ∧
    (∀ s1 s2 err,
      cfg.RegisterMigration (cfg.RegisterQueryServer (cfg.RegisterMsgServer s))
        ModuleName 1 .Migrate1to2 = (s1, none) →
      cfg.RegisterMigration s1 ModuleName 2 .Migrate2to3 = (s2, some err) →
      AppModule.RegisterServices ModuleName cfg s
        = { state := s2, panic := some ⟨ModuleName, 2, 3, err⟩ } ∧
      (AppModule.RegisterServices ModuleName cfg.recording (s, [])).state.2
        = [(⟨ModuleName, 1, .Migrate1to2⟩, none), (⟨ModuleName, 2, .Migrate2to3⟩, some err)]) ∧
    (∀ s1 s2 s3 err,
      cfg.RegisterMigration (cfg.RegisterQueryServer (cfg.RegisterMsgServer s))
        ModuleName 1 .Migrate1to2 = (s1, none) →
      cfg.RegisterMigration s1 ModuleName 2 .Migrate2to3 = (s2, none) →
      cfg.RegisterMigration s2 ModuleName 3 .Migrate3to4 = (s3, some err) →
      AppModule.RegisterServices ModuleName cfg s
        = { state := s3, panic := some ⟨ModuleName, 3, 4, err⟩ } ∧
      (AppModule.RegisterServices ModuleName cfg.recording (s, [])).state.2
        = [(⟨ModuleName, 1, .Migrate1to2⟩, none), (⟨ModuleName, 2, .Migrate2to3⟩, none),
           (⟨ModuleName, 3, .Migrate3to4⟩, some err)]) ∧
    (∀ s1 s2 s3 s4 err,
      cfg.RegisterMigration (cfg.RegisterQueryServer (cfg.RegisterMsgServer s))
        ModuleName 1 .Migrate1to2 = (s1, none) →
      cfg.RegisterMigration s1 ModuleName 2 .Migrate2to3 = (s2, none) →
      cfg.RegisterMigration s2 ModuleName 3 .Migrate3to4 = (s3, none) →
      cfg.RegisterMigration s3 ModuleName 4 .Migrate4to5 = (s4, some err) →
      AppModule.RegisterServices ModuleName cfg s
        = { state := s4, panic := some ⟨ModuleName, 4, 5, err⟩ } ∧
      (AppModule.RegisterServices ModuleName cfg.recording (s, [])).state.2
        = [(⟨ModuleName, 1, .Migrate1to2⟩, none), (⟨ModuleName, 2, .Migrate2to3⟩, none),
           (⟨ModuleName, 3, .Migrate3to4⟩, none), (⟨ModuleName, 4, .Migrate4to5⟩, some err)]) ∧
    (∀ c err,
      (c, some err) ∈ (AppModule.RegisterServices ModuleName cfg.recording (s, [])).state.2 →
      (AppModule.RegisterServices ModuleName cfg s).panic
        = some ⟨ModuleName, c.fromVersion, c.fromVersion + 1, err⟩ ∧
      ∀ c2 ∈ (AppModule.RegisterServices ModuleName cfg.recording (s, [])).state.2,
        c2.1.fromVersion ≤ c.fromVersion) ∧
    ((AppModule.RegisterServices ModuleName cfg s).panic = none →
      (AppModule.RegisterServices ModuleName cfg.recording (s, [])).state.2.map Prod.fst
        = [⟨ModuleName, 1, .Migrate1to2⟩, ⟨ModuleName, 2, .Migrate2to3⟩,
           ⟨ModuleName, 3, .Migrate3to4⟩, ⟨ModuleName, 4, .Migrate4to5⟩]) := by
  refine ⟨recording_transparent ModuleName cfg s [], ?_, ?_, ?_, ?_, ?_, ?_, ?_⟩
  · intro s1 s2 s3 s4 h1 h2 h3 h4
    simp [AppModule.RegisterServices, Configurator.recording, h1, h2, h3, h4,
      AppModule.ConsensusVersion, consensusVersion, List.range']
  · intro s1 err h1
    simp [AppModule.RegisterServices, Configurator.recording, h1]
  · intro s1 s2 err h1 h2
    simp [AppModule.RegisterServices, Configurator.recording, h1, h2]
  · intro s1 s2 s3 err h1 h2 h3
    simp [AppModule.RegisterServices, Configurator.recording, h1, h2, h3]
  · intro s1 s2 s3 s4 err h1 h2 h3 h4
    simp [AppModule.RegisterServices, Configurator.recording, h1, h2, h3, h4]
  · intro c err hmem
    rcases h1 : cfg.RegisterMigration (cfg.RegisterQueryServer (cfg.RegisterMsgServer s))
      ModuleName 1 .Migrate1to2 with ⟨s1, _ | e1⟩
    · rcases h2 : cfg.RegisterMigration s1 ModuleName 2 .Migrate2to3 with ⟨s2, _ | e2⟩
      · rcases h3 : cfg.RegisterMigration s2 ModuleName 3 .Migrate3to4 with ⟨s3, _ | e3⟩
        · rcases h4 : cfg.RegisterMigration s3 ModuleName 4 .Migrate4to5 with ⟨s4, _ | e4⟩
          · simp [AppModule.RegisterServices, Configurator.recording, h1, h2, h3, h4] at hmem
          · simp only [AppModule.RegisterServices, Configurator.recording, h1, h2, h3, h4]
              at hmem ⊢
            simp at hmem
            obtain ⟨hc, he⟩ := hmem
            subst hc he
            simp
        · simp only [AppModule.RegisterServices, Configurator.recording, h1, h2, h3] at hmem ⊢
          simp at hmem
          obtain ⟨hc, he⟩ := hmem
          subst hc he
          simp
      · simp only [AppModule.RegisterServices, Configurator.recording, h1, h2] at hmem ⊢
        simp at hmem
        obtain ⟨hc, he⟩ := hmem
        subst hc he
        simp
    · simp only [AppModule.RegisterServices, Configurator.recording, h1] at hmem ⊢
      simp at hmem
      obtain ⟨hc, he⟩ := hmem
      subst hc he
      simp
  · intro hp
    rcases h1 : cfg.RegisterMigration (cfg.RegisterQueryServer (cfg.RegisterMsgServer s))
      ModuleName 1 .Migrate1to2 with ⟨s1, _ | e1⟩
    · rcases h2 : cfg.RegisterMigration s1 ModuleName 2 .Migrate2to3 with ⟨s2, _ | e2⟩
      · rcases h3 : cfg.RegisterMigration s2 ModuleName 3 .Migrate3to4 with ⟨s3, _ | e3⟩
        · rcases h4 : cfg.RegisterMigration s3 ModuleName 4 .Migrate4to5 with ⟨s4, _ | e4⟩
          · simp [AppModule.RegisterServices, Configurator.recording, h1, h2, h3, h4]
          · simp [AppModule.RegisterServices, h1, h2, h3, h4] at hp
        · simp [AppModule.RegisterServices, h1, h2, h3] at hp
      · simp [AppModule.RegisterServices, h1, h2] at hp
    · simp [AppModule.RegisterServices, h1] at hp

/-- Witness for C9, on the configurator that rejects duplicates: from the
empty registry the four registrations are accepted and recorded in order, and
from a registry that already holds from-version 3 of "staking" the call
panics at version 3 after the calls for 1, 2 and 3. -/
theorem RegisterServices_registers_contiguous_migrations_witness :
    (AppModule.RegisterServices "staking" duplicateRejecting []
        = { state := [⟨"staking", 1, .Migrate1to2⟩, ⟨"staking", 2, .Migrate2to3⟩,
                      ⟨"staking", 3, .Migrate3to4⟩, ⟨"staking", 4, .Migrate4to5⟩],
            panic := none } ∧
      (AppModule.RegisterServices "staking" duplicateRejecting.recording ([], [])).state.2
        = [(⟨"staking", 1, .Migrate1to2⟩, none), (⟨"staking", 2, .Migrate2to3⟩, none),
           (⟨"staking", 3, .Migrate3to4⟩, none), (⟨"staking", 4, .Migrate4to5⟩, none)]) ∧
    (AppModule.RegisterServices "staking" duplicateRejecting [⟨"staking", 3, .Migrate3to4⟩]
        = { state := [⟨"staking", 3, .Migrate3to4⟩, ⟨"staking", 1, .Migrate1to2⟩,
                      ⟨"staking", 2, .Migrate2to3⟩],
            panic := some ⟨"staking", 3, 4, "duplicate migration"⟩ } ∧
      (AppModule.RegisterServices "staking" duplicateRejecting.recording
          ([⟨"staking", 3, .Migrate3to4⟩], [])).state.2
        = [(⟨"staking", 1, .Migrate1to2⟩, none), (⟨"staking", 2, .Migrate2to3⟩, none),
           (⟨"staking", 3, .Migrate3to4⟩, some "duplicate migration")]) :=
  ⟨⟨((RegisterServices_registers_contiguous_migrations "staking" duplicateRejecting []).2.1
        _ _ _ _ rfl rfl rfl rfl).1,
    ((RegisterServices_registers_contiguous_migrations "staking" duplicateRejecting []).2.1
        _ _ _ _ rfl rfl rfl rfl).2.1⟩,
   (RegisterServices_registers_contiguous_migrations "staking" duplicateRejecting
      [⟨"staking", 3, .Migrate3to4⟩]).2.2.2.2.1 _ _ _ _ rfl rfl rfl⟩

/-! ## Claims about `ProvideModule` -/

/-- C10 as stated fails: `ProvideModule` has no failure path.  In the sample
environment the non-empty authority "not-an-address", which is not a
well-formed address, does not make the call fail: the keeper is built and
returned, with the authority the address helper gives for that string. -/
theorem ProvideModule_returns_keeper_for_malformed_authority :
    "not-an-address" ≠ "" ∧
    (ProvideModule sampleAddressEnv
        (⟨⟨[], "", "", "not-an-address"⟩, "valcodec", "conscodec", (), (), (), (), none⟩ :
          ModuleInputs String Unit Unit Unit Unit Unit)).StakingKeeper
      = { cdc := (), storeService := (), ak := (), bk := (),
          authority := "module/not-an-address",
          validatorAddressCodec := "valcodec", consensusAddressCodec := "conscodec" } := by
  decide

/-- C10, amended: with an empty `Config.Authority` the keeper `ProvideModule`
returns is built with the string of the address of the governance module
name, the same for all inputs; with a non-empty `Config.Authority`,
well-formed or not, the call does not fail either and the keeper is built with
the string of the address that `NewModuleAddressOrBech32Address` returns for
it.  In both cases the other arguments of `NewKeeper` are the inputs, and the
module returned wraps that keeper. -/
theorem ProvideModule_authority_resolution {Addr Codec AK BK Cdc Store Subspace : Type}
    (env : AddressEnv Addr) (inp : ModuleInputs Codec AK BK Cdc Store Subspace) :
    (inp.Config.Authority = "" →
      (ProvideModule env inp).StakingKeeper.authority
        = env.AccAddressString (env.NewModuleAddress env.GovModuleName)) ∧
    (∀ inp2 : ModuleInputs Codec AK BK Cdc Store Subspace,
      inp.Config.Authority = "" → inp2.Config.Authority = "" →
      (ProvideModule env inp).StakingKeeper.authority
        = (ProvideModule env inp2).StakingKeeper.authority) ∧
    (inp.Config.Authority ≠ "" →
      (ProvideModule env inp).StakingKeeper.authority
        = env.AccAddressString (env.NewModuleAddressOrBech32Address inp.Config.Authority)) ∧
    (ProvideModule env inp).StakingKeeper
      = { cdc := inp.Cdc, storeService := inp.StoreService, ak := inp.AccountKeeper,
          bk := inp.BankKeeper,
          authority := (ProvideModule env inp).StakingKeeper.authority,
          validatorAddressCodec := inp.ValidatorAddressCodec,
          consensusAddressCodec := inp.ConsensusAddressCodec } ∧
    (ProvideModule env inp).Module
      = NewAppModule inp.Cdc (ProvideModule env inp).StakingKeeper inp.AccountKeeper
          inp.BankKeeper inp.LegacySubspace := by
  refine ⟨?_, ?_, ?_, rfl, rfl⟩
  · intro h
    simp [ProvideModule, h]
  · intro inp2 h h2
    simp [ProvideModule, h, h2]
  · intro h
    simp [ProvideModule, h]

/-- Witness for C10, amended: in the sample environment the empty authority
resolves to the address of "gov", and both a well-formed and a malformed
non-empty authority give a keeper. -/
theorem ProvideModule_authority_resolution_witness :
    (ProvideModule sampleAddressEnv
        (⟨⟨[], "", "", ""⟩, "valcodec", "conscodec", (), (), (), (), none⟩ :
          ModuleInputs String Unit Unit Unit Unit Unit)).StakingKeeper.authority
      = "module/gov" ∧
    (ProvideModule sampleAddressEnv
        (⟨⟨[], "", "", "cosmos1authority"⟩, "valcodec", "conscodec", (), (), (), (), none⟩ :
          ModuleInputs String Unit Unit Unit Unit Unit)).StakingKeeper.authority
      = "cosmos1authority" ∧
    (ProvideModule sampleAddressEnv
        (⟨⟨[], "", "", "not-an-address"⟩, "valcodec", "conscodec", (), (), (), (), none⟩ :
          ModuleInputs String Unit Unit Unit Unit Unit)).StakingKeeper.authority
      = "module/not-an-address" :=
  ⟨((ProvideModule_authority_resolution sampleAddressEnv
        (⟨⟨[], "", "", ""⟩, "valcodec", "conscodec", (), (), (), (), none⟩ :
          ModuleInputs String Unit Unit Unit Unit Unit)).1 rfl).trans (by decide),
   ((ProvideModule_authority_resolution sampleAddressEnv
        (⟨⟨[], "", "", "cosmos1authority"⟩, "valcodec", "conscodec", (), (), (), (), none⟩ :
          ModuleInputs String Unit Unit Unit Unit Unit)).2.2.1 (by decide)).trans (by decide),
   ((ProvideModule_authority_resolution sampleAddressEnv
        (⟨⟨[], "", "", "not-an-address"⟩, "valcodec", "conscodec", (), (), (), (), none⟩ :
          ModuleInputs String Unit Unit Unit Unit Unit)).2.2.1 (by decide)).trans (by decide)⟩

end Staking
